import Mathlib

/-!
Verification development for the soniox-proxy WebSocket relay
(src/server.js).  The file embeds the per-connection relay state machine
of the source as executable Lean definitions and proves the frozen
claims about it.

The repository source concatenates three variants of the server:
the primary variant (in-payload provider API key, full configuration
translation, lines 1-928), a header-auth variant with query-string-only
token extraction (lines 929-1337), and an older header-auth variant that
signals readiness at socket open (lines 1338-1643).  Definitions below are
suffixed V2/V3 where they embed the second or third variant; unsuffixed
definitions embed the primary variant.

Modelling conventions:
- a WebSocket is represented by its readyState (SockState) plus, for
  upstream sockets, the client configuration captured by the closures
  that the source registers on it;
- JavaScript strings that the source inspects character-wise
  (the inbound frame text, tokens, protocol headers) are List Char;
  strings that are only carried verbatim stay String;
- absent JSON fields are Option; JavaScript falsiness of strings and
  numbers (empty string, zero) is modelled explicitly by the orStr /
  orNat / orInt helpers;
- each socket event handler of the source becomes one atomic step of a
  step function; traces of events drive runV1 / runV3.
-/

namespace SonioxProxy

/-- JavaScript readyState values of a WebSocket
(CONNECTING, OPEN, CLOSING, CLOSED). -/
inductive SockState
  | connecting
  | openSt
  | closing
  | closedSt
deriving DecidableEq, Repr

/-- Model of the JavaScript idiom `x || d` for an optional string field:
null/undefined and the empty string are falsy. -/
def orStr (o : Option String) (d : String) : String :=
  match o with
  | some s => if s = "" then d else s
  | none => d

/-- Model of the JavaScript idiom `x || d` for an optional numeric field:
null/undefined and 0 are falsy. -/
def orNat (o : Option Nat) (d : Nat) : Nat :=
  match o with
  | some n => if n = 0 then d else n
  | none => d

/-- Model of the JavaScript idiom `x || d` for an optional integer field
(used for `message.ref || 0`). -/
def orInt (o : Option Int) (d : Int) : Int :=
  match o with
  | some n => if n = 0 then d else n
  | none => d

/-- Model of the JavaScript test `x !== false` on an optional boolean
field: absent means true. -/
def neqFalse (o : Option Bool) : Bool :=
  match o with
  | some b => b
  | none => true

/-- The `translation` sub-object of a client-supplied configuration
(fields read by the source: type, target_language, source_language).
The source field `type` is called `ttype` here because `type` is a Lean
keyword. -/
structure TranslationCfg where
  ttype : Option String
  target_language : Option String
  source_language : Option String
deriving DecidableEq, Repr

/-- The client-supplied session configuration: exactly the fields the
source reads in connectToSoniox (src/server.js lines 754-794). -/
structure ClientConfig where
  model : Option String
  audio_format : Option String
  sample_rate : Option Nat
  num_channels : Option Nat
  include_nonfinal : Option Bool
  language_hints : Option (List String)
  enable_endpoint_detection : Option Bool
  max_non_final_tokens_duration_ms : Option Nat
  translation : Option TranslationCfg
deriving DecidableEq, Repr

/-- A client configuration with every field absent. -/
def emptyClientConfig : ClientConfig :=
  { model := none
    audio_format := none
    sample_rate := none
    num_channels := none
    include_nonfinal := none
    language_hints := none
    enable_endpoint_detection := none
    max_non_final_tokens_duration_ms := none
    translation := none }

/-- The translation object placed into the provider configuration
(src/server.js lines 780-787). -/
structure SonioxTranslation where
  ttype : String
  target_language : String
  source_language : Option String
deriving DecidableEq, Repr

/-- The provider (Soniox) configuration built by the primary variant
(src/server.js lines 755-767 plus the translation block). -/
structure SonioxConfig where
  api_key : String
  model : String
  audio_format : String
  sample_rate : Nat
  num_channels : Nat
  include_nonfinal : Bool
  language_hints : List String
  enable_endpoint_detection : Bool
  max_non_final_tokens_duration_ms : Nat
  translation : Option SonioxTranslation
deriving DecidableEq, Repr

/-- Configuration translation of the primary variant, embedding
src/server.js lines 755-794: field-by-field defaults via JavaScript
falsiness, the translation block added only when a truthy target
language is present, and the server-held API key injected as api_key. -/
def mkSonioxConfig (apiKey : String) (config : ClientConfig) : SonioxConfig :=
  { api_key := apiKey
    model := orStr config.model "stt-rt-preview"
    audio_format := orStr config.audio_format "pcm_s16le"
    sample_rate := orNat config.sample_rate 16000
    num_channels := orNat config.num_channels 1
    include_nonfinal := neqFalse config.include_nonfinal
    language_hints := config.language_hints.getD ["en"]
    enable_endpoint_detection := neqFalse config.enable_endpoint_detection
    max_non_final_tokens_duration_ms := orNat config.max_non_final_tokens_duration_ms 4000
    translation :=
      match config.translation with
      | none => none
      | some t =>
          match t.target_language with
          | none => none
          | some targetLang =>
              if targetLang = "" then none
              else
                some
                  { ttype := orStr t.ttype "one_way"
                    target_language := targetLang
                    source_language :=
                      match t.source_language with
                      | none => none
                      | some sourceLang =>
                          if sourceLang = "" then none else some sourceLang }
  }

/-- A parsed inbound client JSON message: exactly the fields the source
dispatches on (`type`, `ref`, `action`, `config`), plus `asConfig`, the
same JSON object read as a configuration (for the source idiom
`message.config || message`).  The source field `type` is called `mtype`
here because `type` is a Lean keyword. -/
structure ClientMsg where
  mtype : Option String
  ref : Option Int
  action : Option String
  config : Option ClientConfig
  asConfig : ClientConfig
deriving DecidableEq, Repr

/-- An inbound client frame as the ws library delivers it: the binary
flag, the text view `data.toString()` as a character list, whether the
payload is a Buffer (consulted only by the V3 handler), and the result
of `JSON.parse` on the text (none when parsing throws). -/
structure InFrame where
  isBinary : Bool
  isBuffer : Bool
  raw : List Char
  parsed : Option ClientMsg
deriving DecidableEq, Repr

/-- One upstream (Soniox) WebSocket created by connectToSoniox: its
readyState together with the client configuration captured by the
closures registered on it. -/
structure UpSock where
  state : SockState
  cfg : ClientConfig
deriving DecidableEq, Repr

/-- The per-connection record of the source (src/server.js lines
613-618): connection id, client socket readyState, the attached
upstream socket reference (index into socks), and the readiness flag.
socks records every upstream socket created for this connection (the
source keeps them alive as closures even when detached) and timers the
armed 10-second connect timeouts, by socket index. -/
structure ConnState where
  connectionId : String
  clientState : SockState
  sonioxWs : Option Nat
  isReady : Bool
  socks : List UpSock
  timers : List Nat
deriving DecidableEq, Repr

/-- The connection record as created right after successful
authentication (src/server.js lines 613-619). -/
def initConn (connectionId : String) : ConnState :=
  { connectionId := connectionId
    clientState := SockState.openSt
    sonioxWs := none
    isReady := false
    socks := []
    timers := [] }

/-- Frames the server sends to the client (src/server.js section 6 of
the spec): the four JSON frame types plus verbatim-forwarded upstream
data. -/
inductive ClientFrame
  | auth_success (message : String) (connectionId : String)
  | pong (ref : Int) (timestamp : Nat)
  | proxy_ready (connection_id : String)
  | errorFrame (message : String) (code : Option Int)
  | upstreamData (data : String)
deriving DecidableEq, Repr

/-- Operations the relay performs on upstream sockets.  sendCfg is the
primary-variant first frame (translated SonioxConfig); sendCfgSpread is
the V3 first frame (the client config spread with `action` removed);
sendBin forwards raw audio; sendMsg forwards a re-serialized JSON
message. -/
inductive UpAct
  | openConn (sid : Nat)
  | closeConn (sid : Nat)
  | sendCfg (sid : Nat) (cfg : SonioxConfig)
  | sendCfgSpread (sid : Nat) (cfg : ClientConfig)
  | sendBin (sid : Nat) (raw : List Char)
  | sendMsg (sid : Nat) (m : ClientMsg)
deriving DecidableEq, Repr

/-- An observable action of one handler invocation: a frame sent to the
client socket, an operation on an upstream socket, or closing the
client socket. -/
inductive Act
  | toClient (f : ClientFrame)
  | up (a : UpAct)
  | closeClient
deriving DecidableEq, Repr

/-- The frames actually delivered to the client from a list of actions. -/
def clientFramesOf : List Act → List ClientFrame
  | [] => []
  | Act.toClient f :: rest => f :: clientFramesOf rest
  | _ :: rest => clientFramesOf rest

/-- Embeds sendToClient (src/server.js lines 892-896): the frame is sent
only when the client socket readyState is OPEN, otherwise it is
silently dropped. -/
def sendToClient (clientState : SockState) (f : ClientFrame) : List Act :=
  if clientState = SockState.openSt then [Act.toClient f] else []

/-- Embeds sendError (src/server.js lines 898-900). -/
def sendError (clientState : SockState) (message : String) (code : Option Int) : List Act :=
  sendToClient clientState (ClientFrame.errorFrame message code)

/-- readyState of the upstream socket with index sid; a missing index
reads as CLOSED (never reached on valid events). -/
def sockStateAt : List UpSock → Nat → SockState
  | [], _ => SockState.closedSt
  | u :: _, 0 => u.state
  | _ :: rest, n + 1 => sockStateAt rest n

/-- Replace the readyState of the socket with index sid. -/
def setSockState : List UpSock → Nat → SockState → List UpSock
  | [], _, _ => []
  | u :: rest, 0, st => { u with state := st } :: rest
  | u :: rest, n + 1, st => u :: setSockState rest n st

/-- Effect of calling ws.close() on a socket in a given readyState: a
connecting or open socket starts closing; a closing or closed one is
unaffected. -/
def wsCloseState : SockState → SockState
  | SockState.connecting => SockState.closing
  | SockState.openSt => SockState.closing
  | SockState.closing => SockState.closing
  | SockState.closedSt => SockState.closedSt

/-- The character with code 123, an opening curly brace. -/
def lbrace : Char := Char.ofNat 123

/-- The character with code 91, an opening square bracket. -/
def lbracket : Char := Char.ofNat 91

/-- Head-character test embedding the single-character
`dataStr.startsWith(c)` calls of the source. -/
def headIs (l : List Char) (c : Char) : Bool :=
  match l with
  | [] => false
  | x :: _ => x = c

/-- Embeds src/server.js line 658: the frame text looks like JSON when
its first character is an opening curly brace or square bracket. -/
def looksLikeJson (raw : List Char) : Bool :=
  headIs raw lbrace || headIs raw lbracket

/-- The configuration a start message designates, embedding
`message.config || message` (src/server.js line 696). -/
def configToUse (m : ClientMsg) : ClientConfig :=
  match m.config with
  | some c => c
  | none => m.asConfig

/-- Embeds connectToSoniox up to handler registration (src/server.js
lines 730-748 and 861-870, shared verbatim by variant 3 at lines
1502-1519 and 1577-1587): close and detach the attached upstream socket
if any, then create a new connecting socket whose closures capture
config, and arm its 10-second connect timer.  The new socket is
attached to the record only by its later open event. -/
def connectToSoniox (s : ConnState) (config : ClientConfig) : ConnState × List Act :=
  let closePart : ConnState × List Act :=
    match s.sonioxWs with
    | some old =>
        ({ s with
            sonioxWs := none
            socks := setSockState s.socks old (wsCloseState (sockStateAt s.socks old)) },
          [Act.up (UpAct.closeConn old)])
    | none => (s, [])
  let s1 := closePart.1
  let sid := s1.socks.length
  ({ s1 with
      socks := s1.socks ++ [{ state := SockState.connecting, cfg := config }]
      timers := s1.timers ++ [sid] },
    closePart.2 ++ [Act.up (UpAct.openConn sid)])

/-- Forwarding of a parsed JSON message to the upstream socket when one
is attached and open (src/server.js lines 709-727, both the finalize
branch and the default branch perform exactly this send). -/
def forwardJson (s : ConnState) (m : ClientMsg) : List Act :=
  match s.sonioxWs with
  | some sid =>
      if sockStateAt s.socks sid = SockState.openSt then [Act.up (UpAct.sendMsg sid m)]
      else []
  | none => []

/-- Embeds handleClientMessage of the primary variant (src/server.js
lines 647-728): binary non-JSON-looking frames are raw audio (forwarded
when the upstream is attached and open, else silently dropped); other
frames are JSON-parsed (parse failure discards); then dispatch on ping,
start, finalize, and default forwarding. -/
def handleClientMessage (s : ConnState) (f : InFrame) (now : Nat) : ConnState × List Act :=
  if f.isBinary && !looksLikeJson f.raw then
    (s,
      match s.sonioxWs with
      | some sid =>
          if sockStateAt s.socks sid = SockState.openSt then [Act.up (UpAct.sendBin sid f.raw)]
          else []
      | none => [])
  else
    match f.parsed with
    | none => (s, [])
    | some m =>
        if m.mtype = some "ping" then
          (s, sendToClient s.clientState (ClientFrame.pong (orInt m.ref 0) now))
        else if m.action = some "start" then
          connectToSoniox s (configToUse m)
        else if m.mtype = some "finalize" then
          (s, forwardJson s m)
        else
          (s, forwardJson s m)

/-- Embeds the primary-variant open handler (src/server.js lines
750-802): mark the socket open, attach it to the record, build the
translated configuration and send it as the first upstream frame;
readiness is not signalled yet. -/
def onSonioxOpen (apiKey : String) (s : ConnState) (sid : Nat) : ConnState × List Act :=
  match s.socks[sid]? with
  | none => (s, [])
  | some u =>
      ({ s with sonioxWs := some sid, socks := setSockState s.socks sid SockState.openSt },
        [Act.up (UpAct.sendCfg sid (mkSonioxConfig apiKey u.cfg))])

/-- Embeds the primary-variant message handler (src/server.js lines
804-822): on the first upstream frame while not ready, set isReady and
send one proxy_ready; then forward the frame text to the client when
the client socket is open.  The handler never checks which socket the
frame came from. -/
def onSonioxMessage (s : ConnState) (data : String) : ConnState × List Act :=
  let readyPart : ConnState × List Act :=
    if s.isReady = false then
      ({ s with isReady := true },
        sendToClient s.clientState (ClientFrame.proxy_ready s.connectionId))
    else (s, [])
  let s1 := readyPart.1
  let fwd : List Act :=
    if s1.clientState = SockState.openSt then [Act.toClient (ClientFrame.upstreamData data)]
    else []
  (s1, readyPart.2 ++ fwd)

/-- Embeds the primary-variant close handler (src/server.js lines
824-844): detach, clear readiness, and notify the client with an error
frame carrying the close reason (empty reason text falls back to the
literal used on line 840).  reason models `reason.toString()`; the
event itself leaves the socket closed. -/
def onSonioxClose (s : ConnState) (sid : Nat) (code : Int) (reason : String) :
    ConnState × List Act :=
  let s1 :=
    { s with
        sonioxWs := none
        isReady := false
        socks := setSockState s.socks sid SockState.closedSt }
  (s1,
    sendToClient s1.clientState
      (ClientFrame.errorFrame ("Soniox connection closed: " ++ orStr (some reason) "Unknown reason")
        (some code)))

/-- Embeds the primary-variant error handler (src/server.js lines
846-858): detach, clear readiness, and notify the client.  The socket
is modelled as defunct (closed) after an error event. -/
def onSonioxError (s : ConnState) (sid : Nat) (errMsg : String) : ConnState × List Act :=
  let s1 :=
    { s with
        sonioxWs := none
        isReady := false
        socks := setSockState s.socks sid SockState.closedSt }
  (s1,
    sendToClient s1.clientState
      (ClientFrame.errorFrame ("Soniox connection error: " ++ errMsg) none))

/-- Embeds the 10-second connect-timeout callback (src/server.js lines
861-870): when it fires the timer is spent; if the socket it was armed
for is not currently open, the socket is closed and one timeout error
frame is sent to the client.  The timer is never cancelled earlier. -/
def onSonioxTimeout (s : ConnState) (sid : Nat) : ConnState × List Act :=
  let s1 := { s with timers := s.timers.erase sid }
  if sockStateAt s1.socks sid ≠ SockState.openSt then
    ({ s1 with socks := setSockState s1.socks sid (wsCloseState (sockStateAt s1.socks sid)) },
      Act.up (UpAct.closeConn sid) ::
        sendToClient s1.clientState (ClientFrame.errorFrame "Soniox connection timeout" none))
  else (s1, [])

/-- Events a live connection task can receive: an inbound client frame,
or an open/message/close/error event or timer expiry of an upstream
socket (identified by its index). -/
inductive Ev
  | clientMsg (f : InFrame)
  | upOpen (sid : Nat)
  | upMsg (sid : Nat) (data : String)
  | upClose (sid : Nat) (code : Int) (reason : String)
  | upErr (sid : Nat) (errMsg : String)
  | timerFire (sid : Nat)
deriving DecidableEq, Repr

/-- One atomic handler invocation of the primary variant. -/
def stepV1 (apiKey : String) (s : ConnState) (e : Ev) (now : Nat) : ConnState × List Act :=
  match e with
  | Ev.clientMsg f => handleClientMessage s f now
  | Ev.upOpen sid => onSonioxOpen apiKey s sid
  | Ev.upMsg _ data => onSonioxMessage s data
  | Ev.upClose sid code reason => onSonioxClose s sid code reason
  | Ev.upErr sid errMsg => onSonioxError s sid errMsg
  | Ev.timerFire sid => onSonioxTimeout s sid

/-- Which events can actually occur in a state: client frames arrive
while the client leg is open; a socket opens only from CONNECTING,
delivers messages only while OPEN, closes or errors only before CLOSED;
a timer fires only if armed and not yet spent. -/
def validEv (s : ConnState) (e : Ev) : Bool :=
  match e with
  | Ev.clientMsg _ => s.clientState = SockState.openSt
  | Ev.upOpen sid => sockStateAt s.socks sid = SockState.connecting
  | Ev.upMsg sid _ => sockStateAt s.socks sid = SockState.openSt
  | Ev.upClose sid _ _ => sockStateAt s.socks sid ≠ SockState.closedSt
  | Ev.upErr sid _ => sockStateAt s.socks sid ≠ SockState.closedSt
  | Ev.timerFire sid => s.timers.contains sid

/-- Run the primary variant over a timed event trace, skipping events
that cannot occur, and collect all actions in order. -/
def runV1 (apiKey : String) : ConnState → List (Ev × Nat) → ConnState × List Act
  | s, [] => (s, [])
  | s, (e, t) :: rest =>
      if validEv s e then
        let r := stepV1 apiKey s e t
        let r2 := runV1 apiKey r.1 rest
        (r2.1, r.2 ++ r2.2)
      else runV1 apiKey s rest

/-- Embeds handleClientMessage of variant 3 (src/server.js lines
1452-1500): the audio branch is taken whenever the frame is binary or a
Buffer, with no JSON sniffing; there is no finalize branch. -/
def handleClientMessageV3 (s : ConnState) (f : InFrame) (now : Nat) : ConnState × List Act :=
  if f.isBinary || f.isBuffer then
    (s,
      match s.sonioxWs with
      | some sid =>
          if sockStateAt s.socks sid = SockState.openSt then [Act.up (UpAct.sendBin sid f.raw)]
          else []
      | none => [])
  else
    match f.parsed with
    | none => (s, [])
    | some m =>
        if m.mtype = some "ping" then
          (s, sendToClient s.clientState (ClientFrame.pong (orInt m.ref 0) now))
        else if m.action = some "start" then
          connectToSoniox s (configToUse m)
        else
          (s, forwardJson s m)

/-- Embeds the variant-3 open handler (src/server.js lines 1521-1539):
attach the socket, send the client config (spread, minus the action
field) as the first upstream frame, then immediately set isReady and
send proxy_ready to the client, before any upstream inbound frame. -/
def onSonioxOpenV3 (s : ConnState) (sid : Nat) : ConnState × List Act :=
  match s.socks[sid]? with
  | none => (s, [])
  | some u =>
      let s2 :=
        { s with
            sonioxWs := some sid
            socks := setSockState s.socks sid SockState.openSt
            isReady := true }
      (s2,
        Act.up (UpAct.sendCfgSpread sid u.cfg) ::
          sendToClient s2.clientState (ClientFrame.proxy_ready s2.connectionId))

/-- Embeds the variant-3 message handler (src/server.js lines
1541-1546): forward only; readiness is untouched here. -/
def onSonioxMessageV3 (s : ConnState) (data : String) : ConnState × List Act :=
  (s,
    if s.clientState = SockState.openSt then [Act.toClient (ClientFrame.upstreamData data)]
    else [])

/-- Embeds the variant-3 close handler (src/server.js lines 1548-1561):
detach, clear readiness, notify the client with a fixed message and the
close code. -/
def onSonioxCloseV3 (s : ConnState) (sid : Nat) (code : Int) : ConnState × List Act :=
  let s1 :=
    { s with
        sonioxWs := none
        isReady := false
        socks := setSockState s.socks sid SockState.closedSt }
  (s1, sendToClient s1.clientState (ClientFrame.errorFrame "Soniox connection closed" (some code)))

/-- One atomic handler invocation of variant 3.  The error handler
(src/server.js lines 1563-1575) and the connect timeout (lines
1577-1587) are textually identical to the primary variant and reuse its
embeddings. -/
def stepV3 (s : ConnState) (e : Ev) (now : Nat) : ConnState × List Act :=
  match e with
  | Ev.clientMsg f => handleClientMessageV3 s f now
  | Ev.upOpen sid => onSonioxOpenV3 s sid
  | Ev.upMsg _ data => onSonioxMessageV3 s data
  | Ev.upClose sid code _ => onSonioxCloseV3 s sid code
  | Ev.upErr sid errMsg => onSonioxError s sid errMsg
  | Ev.timerFire sid => onSonioxTimeout s sid

/-- Run variant 3 over a timed event trace. -/
def runV3 : ConnState → List (Ev × Nat) → ConnState × List Act
  | s, [] => (s, [])
  | s, (e, t) :: rest =>
      if validEv s e then
        let r := stepV3 s e t
        let r2 := runV3 r.1 rest
        (r2.1, r.2 ++ r2.2)
      else runV3 s rest

/-- The process-wide connection registry, a map from connection id to
record (src/server.js line 552). -/
def Registry : Type := List (String × ConnState)

/-- Registry lookup, embedding connections.get(id). -/
def regGet : List (String × ConnState) → String → Option ConnState
  | [], _ => none
  | p :: rest, id => if p.1 = id then some p.2 else regGet rest id

/-- Registry removal, embedding connections.delete(id) (registry keys
are unique, so removing every binding of the id is the same map). -/
def regDelete : List (String × ConnState) → String → List (String × ConnState)
  | [], _ => []
  | p :: rest, id => if p.1 = id then regDelete rest id else p :: regDelete rest id

/-- Embeds cleanupConnection (src/server.js lines 873-890): a missing
id is a no-op; otherwise close the attached upstream socket if any,
close the client socket unless already closed, and remove the id from
the registry as the final statement of the invocation. -/
def cleanupConnection (reg : List (String × ConnState)) (id : String) :
    List (String × ConnState) × List Act :=
  match regGet reg id with
  | none => (reg, [])
  | some conn =>
      let upActs : List Act :=
        match conn.sonioxWs with
        | some sid => [Act.up (UpAct.closeConn sid)]
        | none => []
      let clientActs : List Act :=
        if conn.clientState ≠ SockState.closedSt then [Act.closeClient] else []
      (regDelete reg id, upActs ++ clientActs)

/-- JavaScript String.prototype.trim whitespace relevant to protocol
headers: space, tab, newline, carriage return. -/
def isJsWs (c : Char) : Bool :=
  c = ' ' || c = '\t' || c = '\n' || c = '\r'

/-- Trim embedding `p.trim()` on header components. -/
def jsTrim (l : List Char) : List Char :=
  ((l.dropWhile isJsWs).reverse.dropWhile isJsWs).reverse

/-- Split on commas, embedding `protocols.split(',')`. -/
def splitOnComma : List Char → List (List Char)
  | [] => [[]]
  | c :: rest =>
      if c = ',' then [] :: splitOnComma rest
      else
        match splitOnComma rest with
        | [] => [[c]]
        | g :: gs => (c :: g) :: gs

/-- The characters of the literal prefix the source scans for. -/
def bearerDot : List Char := ['B', 'e', 'a', 'r', 'e', 'r', '.']

/-- Prefix test embedding `p.startsWith(pre)`. -/
def startsWithList : List Char → List Char → Bool
  | [], _ => true
  | _ :: _, [] => false
  | p :: ps, x :: xs => p = x && startsWithList ps xs

/-- Embeds `bearerProtocol.replace(x, '')` for the seven-character
Bearer prefix: the component is known to start with it, so replacing
its first occurrence removes the first seven characters. -/
def stripBearerDot (p : List Char) : List Char := p.drop 7

/-- A WebSocket upgrade request as the connection handler reads it: the
token query parameter (none when absent, possibly empty when present)
and the Sec-WebSocket-Protocol header value. -/
structure UpgradeReq where
  queryToken : Option (List Char)
  secWebSocketProtocol : Option (List Char)
deriving DecidableEq, Repr

/-- Embeds the primary-variant token extraction (src/server.js lines
568-582): take the query parameter; if it is falsy (absent or empty),
scan the comma-separated trimmed protocol components for the first one
starting with the Bearer prefix and strip that prefix. -/
def extractTokenV1 (req : UpgradeReq) : Option (List Char) :=
  let token := req.queryToken
  if (token.getD []).isEmpty then
    match req.secWebSocketProtocol with
    | none => token
    | some protocols =>
        let protocolParts := (splitOnComma protocols).map jsTrim
        match protocolParts.find? (fun p => startsWithList bearerDot p) with
        | some bearerProtocol => some (stripBearerDot bearerProtocol)
        | none => token
  else token

/-- Embeds the variant-2 token extraction (src/server.js lines
1048-1049): the query parameter only, no header fallback. -/
def extractTokenV2 (req : UpgradeReq) : Option (List Char) :=
  req.queryToken

/-- Outcome of the upgrade-path authentication gate: either the
connection is rejected with Unauthorized before the credential verifier
runs, or the verifier is invoked with the extracted token. -/
inductive AuthOutcome
  | rejectNoToken
  | verify (token : List Char)
deriving DecidableEq, Repr

/-- The primary-variant gate (src/server.js lines 584-593): a falsy
token after extraction rejects with Unauthorized; otherwise the
verifier is invoked with the token. -/
def wsAuthV1 (req : UpgradeReq) : AuthOutcome :=
  match extractTokenV1 req with
  | none => AuthOutcome.rejectNoToken
  | some t => if t.isEmpty then AuthOutcome.rejectNoToken else AuthOutcome.verify t

/-- The variant-2 gate (src/server.js lines 1048-1060). -/
def wsAuthV2 (req : UpgradeReq) : AuthOutcome :=
  match extractTokenV2 req with
  | none => AuthOutcome.rejectNoToken
  | some t => if t.isEmpty then AuthOutcome.rejectNoToken else AuthOutcome.verify t

/-- The extraction policy exactly as the claim states it, for
comparison against the code: prefer the query parameter; when it is
absent scan the comma-separated, trimmed protocol components for a
Bearer component; when neither yields a token, reject with Unauthorized
before the verifier runs. -/
def claimTokenPolicy (req : UpgradeReq) : AuthOutcome :=
  match req.queryToken with
  | some t => AuthOutcome.verify t
  | none =>
      match req.secWebSocketProtocol with
      | none => AuthOutcome.rejectNoToken
      | some protocols =>
          match ((splitOnComma protocols).map jsTrim).find?
              (fun p => startsWithList bearerDot p) with
          | some p => AuthOutcome.verify (stripBearerDot p)
          | none => AuthOutcome.rejectNoToken

/-- The first non-whitespace character of a frame text, used to state
the audio-classification claim. -/
def firstNonWsChar (l : List Char) : Option Char :=
  (l.dropWhile isJsWs).head?

/-- Recognizer for proxy_ready frames. -/
def isProxyReadyFrame : ClientFrame → Bool
  | ClientFrame.proxy_ready _ => true
  | _ => false

/-- The proxy_ready frames delivered to the client in an action list. -/
def proxyReadyFrames (acts : List Act) : List ClientFrame :=
  (clientFramesOf acts).filter isProxyReadyFrame

/-- Recognizer for upstream close operations in an action list. -/
def isCloseConnAct : Act → Bool
  | Act.up (UpAct.closeConn _) => true
  | _ => false

/-- Recognizer for the connect-timeout error frame. -/
def isTimeoutErrFrame : ClientFrame → Bool
  | ClientFrame.errorFrame m _ => m = "Soniox connection timeout"
  | _ => false

/-- Whether a trace contains any upstream inbound frame event. -/
def hasUpMsg : List (Ev × Nat) → Bool
  | [] => false
  | (Ev.upMsg _ _, _) :: _ => true
  | _ :: rest => hasUpMsg rest

theorem clientFramesOf_append (a b : List Act) :
    clientFramesOf (a ++ b) = clientFramesOf a ++ clientFramesOf b := by
  induction a with
  | nil => rfl
  | cons x rest ih => cases x <;> simp [clientFramesOf, ih]

theorem setSockState_length (socks : List UpSock) (i : Nat) (st : SockState) :
    (setSockState socks i st).length = socks.length := by
  induction socks generalizing i with
  | nil => rfl
  | cons u rest ih =>
      cases i with
      | zero => rfl
      | succ n => simp [setSockState, ih]

theorem sockStateAt_append_lt (socks : List UpSock) (u : UpSock) (i : Nat)
    (h : i < socks.length) : sockStateAt (socks ++ [u]) i = sockStateAt socks i := by
  induction socks generalizing i with
  | nil => exact absurd h (by simp)
  | cons v rest ih =>
      cases i with
      | zero => rfl
      | succ n => exact ih n (Nat.lt_of_succ_lt_succ (by simpa using h))

theorem sockStateAt_set_self (socks : List UpSock) (i : Nat) (st : SockState)
    (h : i < socks.length) : sockStateAt (setSockState socks i st) i = st := by
  induction socks generalizing i with
  | nil => exact absurd h (by simp)
  | cons v rest ih =>
      cases i with
      | zero => rfl
      | succ n => exact ih n (Nat.lt_of_succ_lt_succ (by simpa using h))

theorem regGet_regDelete (reg : List (String × ConnState)) (id : String) :
    regGet (regDelete reg id) id = none := by
  induction reg with
  | nil => rfl
  | cons p rest ih =>
      by_cases h : p.1 = id
      · simpa [regDelete, h] using ih
      · simpa [regDelete, regGet, h] using ih

theorem connectToSoniox_isReady (s : ConnState) (c : ClientConfig) :
    (connectToSoniox s c).1.isReady = s.isReady := by
  cases h : s.sonioxWs <;> simp [connectToSoniox, h]

theorem connectToSoniox_clientState (s : ConnState) (c : ClientConfig) :
    (connectToSoniox s c).1.clientState = s.clientState := by
  cases h : s.sonioxWs <;> simp [connectToSoniox, h]

theorem clientFramesOf_connectToSoniox (s : ConnState) (c : ClientConfig) :
    clientFramesOf (connectToSoniox s c).2 = [] := by
  cases h : s.sonioxWs <;> simp [connectToSoniox, h, clientFramesOf]

theorem clientFramesOf_forwardJson (s : ConnState) (m : ClientMsg) :
    clientFramesOf (forwardJson s m) = [] := by
  unfold forwardJson
  cases s.sonioxWs with
  | none => rfl
  | some sid =>
      by_cases h : sockStateAt s.socks sid = SockState.openSt <;> simp [h, clientFramesOf]

theorem sendToClient_not_open (st : SockState) (f : ClientFrame)
    (h : st ≠ SockState.openSt) : sendToClient st f = [] := by
  simp [sendToClient, h]

theorem handleClientMessage_isReady (s : ConnState) (f : InFrame) (now : Nat) :
    (handleClientMessage s f now).1.isReady = s.isReady := by
  unfold handleClientMessage
  split
  · rfl
  · cases hp : f.parsed with
    | none => rfl
    | some m =>
        simp only []
        split
        · rfl
        · split
          · exact connectToSoniox_isReady s (configToUse m)
          · split
            · rfl
            · rfl

theorem looksLikeJson_eq_false (raw : List Char)
    (h1 : firstNonWsChar raw ≠ some lbrace) (h2 : firstNonWsChar raw ≠ some lbracket) :
    looksLikeJson raw = false := by
  cases raw with
  | nil => rfl
  | cons c t =>
      by_cases hw : isJsWs c = true
      · have hcb : c ≠ lbrace := by
          intro hc
          rw [hc] at hw
          exact absurd hw (by decide)
        have hck : c ≠ lbracket := by
          intro hc
          rw [hc] at hw
          exact absurd hw (by decide)
        simp [looksLikeJson, headIs, hcb, hck]
      · have hfw : firstNonWsChar (c :: t) = some c := by
          simp [firstNonWsChar, List.dropWhile, hw]
        have hcb : c ≠ lbrace := by
          intro hc
          exact h1 (by rw [hfw, hc])
        have hck : c ≠ lbracket := by
          intro hc
          exact h2 (by rw [hfw, hc])
        simp [looksLikeJson, headIs, hcb, hck]

/-- C8: every inbound client frame that reaches the JSON-parsing step
(it is not classified as raw audio) and fails to parse is discarded: no
client-visible frame, nothing sent upstream, the per-connection state
unchanged, the connection not closed. -/
theorem C8_malformed_discarded :
    ∀ apiKey s f now, (f.isBinary && !looksLikeJson f.raw) = false → f.parsed = none →
      stepV1 apiKey s (Ev.clientMsg f) now = (s, []) := by
  intro apiKey s f now hbin hp
  simp [stepV1, handleClientMessage, hbin, hp]

/-- Witness for C8 on the concrete frame of the spec example, the text
frame reading open-brace not json. -/
def malformedFrameEx : InFrame :=
  { isBinary := false
    isBuffer := false
    raw := lbrace :: ['n', 'o', 't', ' ', 'j', 's', 'o', 'n']
    parsed := none }

theorem C8_witness :
    stepV1 "k" (initConn "c8") (Ev.clientMsg malformedFrameEx) 0 = (initConn "c8", []) :=
  C8_malformed_discarded "k" (initConn "c8") malformedFrameEx 0 (by decide) rfl

/-- C9: a parsed ping frame handled while the client socket is open
yields exactly one pong echoing the ref field (defaulting to 0 when the
field is absent or 0, the JavaScript-falsy default of the source) and
stamped with the handling time, and has no other effect: the state,
including the upstream session, is untouched and nothing is sent
upstream.  The timestamp is the instant the handler runs, which is at
or after frame receipt. -/
theorem C9_ping_pong :
    (∀ apiKey s f m now, (f.isBinary && !looksLikeJson f.raw) = false →
        f.parsed = some m → m.mtype = some "ping" → s.clientState = SockState.openSt →
        stepV1 apiKey s (Ev.clientMsg f) now
          = (s, [Act.toClient (ClientFrame.pong (orInt m.ref 0) now)]))
  ∧ (∀ r : Int, orInt (some r) 0 = r) ∧ orInt none 0 = 0 := by
  refine ⟨?_, ?_, rfl⟩
  · intro apiKey s f m now hbin hp hping hopen
    simp [stepV1, handleClientMessage, hbin, hp, hping, sendToClient, hopen]
  · intro r
    by_cases h : r = 0 <;> simp [orInt, h]

/-- A concrete ping frame with ref 42. -/
def pingMsgEx : ClientMsg :=
  { mtype := some "ping", ref := some 42, action := none, config := none,
    asConfig := emptyClientConfig }

/-- The ping frame of the spec example as delivered on the wire. -/
def pingFrameEx : InFrame :=
  { isBinary := false
    isBuffer := false
    raw := lbrace :: []
    parsed := some pingMsgEx }

theorem C9_witness :
    stepV1 "k" (initConn "c9") (Ev.clientMsg pingFrameEx) 5
      = (initConn "c9", [Act.toClient (ClientFrame.pong 42 5)]) := by
  have h := C9_ping_pong.1 "k" (initConn "c9") pingFrameEx pingMsgEx 5 (by decide) rfl rfl rfl
  simpa [orInt] using h

/-- C10: sendToClient and sendError deliver a frame only when the
client socket readyState is OPEN and silently drop it otherwise, and
every client-bound frame any handler of either modelled variant emits
passes through that guard, so no send is ever attempted on a closing,
closed or connecting client socket. -/
theorem C10_client_send_guard :
    (∀ st f, st ≠ SockState.openSt → sendToClient st f = [])
  ∧ (∀ st msg code, st ≠ SockState.openSt → sendError st msg code = [])
  ∧ (∀ apiKey s e now, s.clientState ≠ SockState.openSt →
      clientFramesOf (stepV1 apiKey s e now).2 = [])
  ∧ (∀ s e now, s.clientState ≠ SockState.openSt →
      clientFramesOf (stepV3 s e now).2 = []) := by
  refine ⟨fun st f h => sendToClient_not_open st f h,
    fun st msg code h => sendToClient_not_open st _ h, ?_, ?_⟩
  · intro apiKey s e now h
    cases e with
    | clientMsg f =>
        show clientFramesOf (handleClientMessage s f now).2 = []
        unfold handleClientMessage
        split
        · cases hws : s.sonioxWs with
          | none => rfl
          | some sid =>
              by_cases ho : sockStateAt s.socks sid = SockState.openSt <;>
                simp [ho, clientFramesOf]
        · cases hp : f.parsed with
          | none => rfl
          | some m =>
              simp only []
              split
              · simp [sendToClient_not_open _ _ h, clientFramesOf]
              · split
                · exact clientFramesOf_connectToSoniox s (configToUse m)
                · split
                  · exact clientFramesOf_forwardJson s m
                  · exact clientFramesOf_forwardJson s m
    | upOpen sid =>
        show clientFramesOf (onSonioxOpen apiKey s sid).2 = []
        unfold onSonioxOpen
        cases s.socks[sid]? <;> simp [clientFramesOf]
    | upMsg sid data =>
        show clientFramesOf (onSonioxMessage s data).2 = []
        unfold onSonioxMessage
        by_cases hr : s.isReady = false <;>
          simp [hr, clientFramesOf_append, sendToClient_not_open _ _ h, h, clientFramesOf]
    | upClose sid code reason =>
        show clientFramesOf (onSonioxClose s sid code reason).2 = []
        simp [onSonioxClose, sendToClient_not_open _ _ h, clientFramesOf]
    | upErr sid errMsg =>
        show clientFramesOf (onSonioxError s sid errMsg).2 = []
        simp [onSonioxError, sendToClient_not_open _ _ h, clientFramesOf]
    | timerFire sid =>
        show clientFramesOf (onSonioxTimeout s sid).2 = []
        unfold onSonioxTimeout
        by_cases ho : sockStateAt s.socks sid = SockState.openSt <;>
          simp [ho, sendToClient_not_open _ _ h, clientFramesOf]
  · intro s e now h
    cases e with
    | clientMsg f =>
        show clientFramesOf (handleClientMessageV3 s f now).2 = []
        unfold handleClientMessageV3
        split
        · cases hws : s.sonioxWs with
          | none => rfl
          | some sid =>
              by_cases ho : sockStateAt s.socks sid = SockState.openSt <;>
                simp [ho, clientFramesOf]
        · cases hp : f.parsed with
          | none => rfl
          | some m =>
              simp only []
              split
              · simp [sendToClient_not_open _ _ h, clientFramesOf]
              · split
                · exact clientFramesOf_connectToSoniox s (configToUse m)
                · exact clientFramesOf_forwardJson s m
    | upOpen sid =>
        show clientFramesOf (onSonioxOpenV3 s sid).2 = []
        unfold onSonioxOpenV3
        cases s.socks[sid]? <;>
          simp [sendToClient_not_open _ _ h, h, clientFramesOf]
    | upMsg sid data =>
        show clientFramesOf (onSonioxMessageV3 s data).2 = []
        simp [onSonioxMessageV3, h, clientFramesOf]
    | upClose sid code reason =>
        show clientFramesOf (onSonioxCloseV3 s sid code).2 = []
        simp [onSonioxCloseV3, sendToClient_not_open _ _ h, clientFramesOf]
    | upErr sid errMsg =>
        show clientFramesOf (onSonioxError s sid errMsg).2 = []
        simp [onSonioxError, sendToClient_not_open _ _ h, clientFramesOf]
    | timerFire sid =>
        show clientFramesOf (onSonioxTimeout s sid).2 = []
        unfold onSonioxTimeout
        by_cases ho : sockStateAt s.socks sid = SockState.openSt <;>
          simp [ho, sendToClient_not_open _ _ h, clientFramesOf]

/-- A connection whose client leg has already closed. -/
def closedClientConn : ConnState :=
  { initConn "c10" with clientState := SockState.closedSt }

theorem C10_witness :
    sendToClient SockState.closedSt (ClientFrame.proxy_ready "c10") = []
    ∧ clientFramesOf (stepV1 "k" closedClientConn (Ev.upMsg 0 "ack") 3).2 = [] := by
  refine ⟨C10_client_send_guard.1 SockState.closedSt _ (by decide), ?_⟩
  exact C10_client_send_guard.2.2.1 "k" closedClientConn (Ev.upMsg 0 "ack") 3 (by decide)

/-- C5: a binary-framed inbound client frame whose first non-whitespace
character is neither an opening curly brace nor an opening square
bracket is treated as raw audio by both variants that the claim cites:
when an upstream socket is attached and open the raw bytes are
forwarded unmodified, and otherwise the frame is silently discarded
with no error frame, no state change and no other observable effect.
For the primary variant this uses that a text whose first
non-whitespace character is not a brace or bracket cannot start with
one; variant 3 takes its audio branch on the binary flag alone. -/
theorem C5_binary_audio :
    (∀ apiKey s f now, f.isBinary = true →
        firstNonWsChar f.raw ≠ some lbrace → firstNonWsChar f.raw ≠ some lbracket →
        stepV1 apiKey s (Ev.clientMsg f) now
          = (s,
              match s.sonioxWs with
              | some sid =>
                  if sockStateAt s.socks sid = SockState.openSt
                  then [Act.up (UpAct.sendBin sid f.raw)]
                  else []
              | none => []))
  ∧ (∀ s f now, f.isBinary = true →
        stepV3 s (Ev.clientMsg f) now
          = (s,
              match s.sonioxWs with
              | some sid =>
                  if sockStateAt s.socks sid = SockState.openSt
                  then [Act.up (UpAct.sendBin sid f.raw)]
                  else []
              | none => [])) := by
  constructor
  · intro apiKey s f now hbin h1 h2
    have hll := looksLikeJson_eq_false f.raw h1 h2
    simp [stepV1, handleClientMessage, hbin, hll]
  · intro s f now hbin
    simp [stepV3, handleClientMessageV3, hbin]

/-- A binary audio frame whose content does not look like JSON. -/
def audioFrameEx : InFrame :=
  { isBinary := true
    isBuffer := true
    raw := ['a', 'u', 'd', 'i', 'o']
    parsed := none }

theorem C5_witness :
    stepV1 "k" (initConn "c5") (Ev.clientMsg audioFrameEx) 0 = (initConn "c5", [])
    ∧ stepV3 (initConn "c5") (Ev.clientMsg audioFrameEx) 0 = (initConn "c5", []) := by
  constructor
  · have h := C5_binary_audio.1 "k" (initConn "c5") audioFrameEx 0 rfl (by decide) (by decide)
    simpa using h
  · have h := C5_binary_audio.2 (initConn "c5") audioFrameEx 0 rfl
    simpa using h

/-- C6: the translated upstream configuration is built field-by-field
with the claimed defaults when a field is absent (include_nonfinal
true, enable_endpoint_detection true, max_non_final_tokens_duration_ms
4000, language_hints the single-element generic list); a translation
sub-object with a truthy target_language produces a translation object
carrying that target language, the source language when provided, and
the mode tag defaulting to one_way; the server-held provider key is the
api_key field of the translated configuration; and no client-observable
output of any handler depends on that key (so the key never appears in
any frame the client can see). -/
theorem C6_config_translation :
    (∀ apiKey c, (mkSonioxConfig apiKey c).api_key = apiKey)
  ∧ (∀ apiKey c, c.include_nonfinal = none → (mkSonioxConfig apiKey c).include_nonfinal = true)
  ∧ (∀ apiKey c, c.enable_endpoint_detection = none →
      (mkSonioxConfig apiKey c).enable_endpoint_detection = true)
  ∧ (∀ apiKey c, c.max_non_final_tokens_duration_ms = none →
      (mkSonioxConfig apiKey c).max_non_final_tokens_duration_ms = 4000)
  ∧ (∀ apiKey c, c.language_hints = none → (mkSonioxConfig apiKey c).language_hints = ["en"])
  ∧ (∀ apiKey c t tl, c.translation = some t → t.target_language = some tl → tl ≠ "" →
      (mkSonioxConfig apiKey c).translation
        = some
            { ttype := orStr t.ttype "one_way"
              target_language := tl
              source_language :=
                match t.source_language with
                | none => none
                | some sl => if sl = "" then none else some sl })
  ∧ (∀ apiKey apiKey2 s e now,
      (stepV1 apiKey s e now).1 = (stepV1 apiKey2 s e now).1
      ∧ clientFramesOf (stepV1 apiKey s e now).2
          = clientFramesOf (stepV1 apiKey2 s e now).2) := by
  refine ⟨fun apiKey c => rfl, ?_, ?_, ?_, ?_, ?_, ?_⟩
  · intro apiKey c h
    simp [mkSonioxConfig, neqFalse, h]
  · intro apiKey c h
    simp [mkSonioxConfig, neqFalse, h]
  · intro apiKey c h
    simp [mkSonioxConfig, orNat, h]
  · intro apiKey c h
    simp [mkSonioxConfig, h]
  · intro apiKey c t tl ht htl htl2
    simp [mkSonioxConfig, ht, htl, htl2]
  · intro apiKey apiKey2 s e now
    cases e with
    | clientMsg f => exact ⟨rfl, rfl⟩
    | upOpen sid =>
        show (onSonioxOpen apiKey s sid).1 = (onSonioxOpen apiKey2 s sid).1
          ∧ clientFramesOf (onSonioxOpen apiKey s sid).2
              = clientFramesOf (onSonioxOpen apiKey2 s sid).2
        unfold onSonioxOpen
        cases s.socks[sid]? <;> simp [clientFramesOf]
    | upMsg sid data => exact ⟨rfl, rfl⟩
    | upClose sid code reason => exact ⟨rfl, rfl⟩
    | upErr sid errMsg => exact ⟨rfl, rfl⟩
    | timerFire sid => exact ⟨rfl, rfl⟩

/-- The translation sub-object of the spec example (target es,
source en). -/
def translationCfgEx : TranslationCfg :=
  { ttype := none, target_language := some "es", source_language := some "en" }

/-- The client configuration of the spec example. -/
def clientConfigEx : ClientConfig :=
  { emptyClientConfig with translation := some translationCfgEx }

theorem C6_witness :
    (mkSonioxConfig "KEY" clientConfigEx).api_key = "KEY"
    ∧ (mkSonioxConfig "KEY" clientConfigEx).translation
        = some { ttype := "one_way", target_language := "es", source_language := some "en" }
    ∧ (mkSonioxConfig "KEY" emptyClientConfig).include_nonfinal = true
    ∧ (mkSonioxConfig "KEY" emptyClientConfig).language_hints = ["en"] := by
  refine ⟨C6_config_translation.1 "KEY" clientConfigEx, ?_, ?_, ?_⟩
  · have h := C6_config_translation.2.2.2.2.2.1 "KEY" clientConfigEx translationCfgEx "es"
      rfl rfl (by decide)
    simpa [orStr, translationCfgEx] using h
  · exact C6_config_translation.2.1 "KEY" emptyClientConfig rfl
  · exact C6_config_translation.2.2.2.2.1 "KEY" emptyClientConfig rfl

/-- A minimal parsed start message (no nested config, so the message
itself is the configuration). -/
def startMsgEx : ClientMsg :=
  { mtype := none, ref := none, action := some "start", config := none,
    asConfig := emptyClientConfig }

/-- The start message as an inbound frame. -/
def startFrameEx : InFrame :=
  { isBinary := false, isBuffer := false, raw := [], parsed := some startMsgEx }

/-- The variant-3 trace refuting C1: a start followed by the upstream
socket opening, with no upstream inbound frame at all. -/
def c1Trace : List (Ev × Nat) :=
  [(Ev.clientMsg startFrameEx, 0), (Ev.upOpen 0, 1)]

/-- C1 counterexample: in the variant the claim cites at src/server.js
lines 1521-1539, after a start and the upstream open event alone,
is_ready is already true and a proxy_ready frame has been emitted,
although no inbound frame from the upstream provider occurred, so the
false-to-true transition does not happen only upon receipt of the first
inbound frame. -/
theorem C1_counterexample :
    (runV3 (initConn "c1") c1Trace).1.isReady = true
    ∧ clientFramesOf (runV3 (initConn "c1") c1Trace).2 = [ClientFrame.proxy_ready "c1"]
    ∧ hasUpMsg c1Trace = false := by
  decide

/-- C1 as amended: in the primary variant, is_ready is false at record
creation and is never modified by a client frame (in particular a start
leaves it unchanged rather than resetting it); an upstream inbound
frame handled while not ready sets it true and emits exactly one
proxy_ready carrying the connection id (when the client socket is
open), while a frame handled while ready emits none; upstream close and
error handlers reset it to false and never emit proxy_ready.  In the
query-string-only header-auth variant, the upstream open event sets
is_ready and emits the proxy_ready frame, before any inbound provider
frame. -/
theorem C1_amended :
    (∀ id, (initConn id).isReady = false)
  ∧ (∀ apiKey s f now, (stepV1 apiKey s (Ev.clientMsg f) now).1.isReady = s.isReady)
  ∧ (∀ apiKey s sid data now, s.isReady = false →
      (stepV1 apiKey s (Ev.upMsg sid data) now).1.isReady = true
      ∧ (s.clientState = SockState.openSt →
          proxyReadyFrames (stepV1 apiKey s (Ev.upMsg sid data) now).2
            = [ClientFrame.proxy_ready s.connectionId]))
  ∧ (∀ apiKey s sid data now, s.isReady = true →
      (stepV1 apiKey s (Ev.upMsg sid data) now).1.isReady = true
      ∧ proxyReadyFrames (stepV1 apiKey s (Ev.upMsg sid data) now).2 = [])
  ∧ (∀ apiKey s sid code reason now,
      (stepV1 apiKey s (Ev.upClose sid code reason) now).1.isReady = false
      ∧ proxyReadyFrames (stepV1 apiKey s (Ev.upClose sid code reason) now).2 = [])
  ∧ (∀ apiKey s sid errMsg now,
      (stepV1 apiKey s (Ev.upErr sid errMsg) now).1.isReady = false
      ∧ proxyReadyFrames (stepV1 apiKey s (Ev.upErr sid errMsg) now).2 = [])
  ∧ (∀ s sid u now, s.socks[sid]? = some u →
      (stepV3 s (Ev.upOpen sid) now).1.isReady = true
      ∧ (s.clientState = SockState.openSt →
          proxyReadyFrames (stepV3 s (Ev.upOpen sid) now).2
            = [ClientFrame.proxy_ready s.connectionId])) := by
  refine ⟨fun id => rfl, ?_, ?_, ?_, ?_, ?_, ?_⟩
  · intro apiKey s f now
    exact handleClientMessage_isReady s f now
  · intro apiKey s sid data now hready
    constructor
    · simp [stepV1, onSonioxMessage, hready]
    · intro hopen
      simp [stepV1, onSonioxMessage, hready, proxyReadyFrames, sendToClient, hopen,
        clientFramesOf_append, clientFramesOf, isProxyReadyFrame]
  · intro apiKey s sid data now hready
    constructor
    · simp [stepV1, onSonioxMessage, hready]
    · by_cases hopen : s.clientState = SockState.openSt <;>
        simp [stepV1, onSonioxMessage, hready, proxyReadyFrames, sendToClient, hopen,
          clientFramesOf_append, clientFramesOf, isProxyReadyFrame]
  · intro apiKey s sid code reason now
    constructor
    · simp [stepV1, onSonioxClose]
    · by_cases hopen : s.clientState = SockState.openSt <;>
        simp [stepV1, onSonioxClose, proxyReadyFrames, sendToClient, hopen,
          clientFramesOf, isProxyReadyFrame]
  · intro apiKey s sid errMsg now
    constructor
    · simp [stepV1, onSonioxError]
    · by_cases hopen : s.clientState = SockState.openSt <;>
        simp [stepV1, onSonioxError, proxyReadyFrames, sendToClient, hopen,
          clientFramesOf, isProxyReadyFrame]
  · intro s sid u now hu
    constructor
    · simp [stepV3, onSonioxOpenV3, hu]
    · intro hopen
      simp [stepV3, onSonioxOpenV3, hu, proxyReadyFrames, sendToClient, hopen,
        clientFramesOf, isProxyReadyFrame]

theorem C1_witness :
    (stepV1 "k" (initConn "c1w") (Ev.upMsg 0 "ack") 5).1.isReady = true
    ∧ proxyReadyFrames (stepV1 "k" (initConn "c1w") (Ev.upMsg 0 "ack") 5).2
        = [ClientFrame.proxy_ready "c1w"] := by
  have h := C1_amended.2.2.1 "k" (initConn "c1w") 0 "ack" 5 rfl
  exact ⟨h.1, h.2 rfl⟩

/-- The primary-variant trace refuting C2: two starts in quick
succession (the second arriving before the first socket has opened),
after which both sockets open. -/
def c2Trace : List (Ev × Nat) :=
  [(Ev.clientMsg startFrameEx, 0), (Ev.clientMsg startFrameEx, 0),
    (Ev.upOpen 0, 1), (Ev.upOpen 1, 1)]

/-- C2 counterexample: on the primary variant, a second start sent in
succession does not close the upstream connection created by the first
start, because only the attached socket is closed and attachment
happens at the open event: the whole trace emits no upstream close at
all, and afterwards the connection record has two upstream sockets
simultaneously open. -/
theorem C2_counterexample :
    (runV1 "k" (initConn "c2") c2Trace).2.filter isCloseConnAct = []
    ∧ (runV1 "k" (initConn "c2") c2Trace).1.socks.map UpSock.state
        = [SockState.openSt, SockState.openSt] := by
  decide

/-- C2 as amended: the Connection Record holds at most one attached
upstream socket at any instant (the sonioxWs field), and a start that
arrives while a socket is attached closes and discards it before the
new outbound connection is opened (the close action precedes the open
action, the record is detached, and the old socket moves to its closing
state).  However a start only closes the attached socket: when none is
attached, as with a socket still connecting from an earlier start, it
just opens the new connection, so two live upstream sockets can exist
transiently. -/
theorem C2_amended :
    (∀ apiKey s f m now old, (f.isBinary && !looksLikeJson f.raw) = false →
        f.parsed = some m → m.mtype ≠ some "ping" → m.action = some "start" →
        s.sonioxWs = some old → old < s.socks.length →
        (stepV1 apiKey s (Ev.clientMsg f) now).2
          = [Act.up (UpAct.closeConn old), Act.up (UpAct.openConn s.socks.length)]
        ∧ (stepV1 apiKey s (Ev.clientMsg f) now).1.sonioxWs = none
        ∧ sockStateAt (stepV1 apiKey s (Ev.clientMsg f) now).1.socks old
            = wsCloseState (sockStateAt s.socks old))
  ∧ (∀ apiKey s f m now, (f.isBinary && !looksLikeJson f.raw) = false →
        f.parsed = some m → m.mtype ≠ some "ping" → m.action = some "start" →
        s.sonioxWs = none →
        (stepV1 apiKey s (Ev.clientMsg f) now).2 = [Act.up (UpAct.openConn s.socks.length)]
        ∧ (stepV1 apiKey s (Ev.clientMsg f) now).1.sonioxWs = none) := by
  constructor
  · intro apiKey s f m now old hbin hp hping hstart hws hlt
    have hstep : stepV1 apiKey s (Ev.clientMsg f) now = connectToSoniox s (configToUse m) := by
      simp [stepV1, handleClientMessage, hbin, hp, hping, hstart]
    rw [hstep]
    refine ⟨?_, ?_, ?_⟩
    · simp [connectToSoniox, hws, setSockState_length]
    · simp [connectToSoniox, hws]
    · have hlt2 : old < (setSockState s.socks old (wsCloseState (sockStateAt s.socks old))).length := by
        rw [setSockState_length]
        exact hlt
      simp only [connectToSoniox, hws]
      rw [sockStateAt_append_lt _ _ _ hlt2]
      exact sockStateAt_set_self s.socks old _ hlt
  · intro apiKey s f m now hbin hp hping hstart hws
    have hstep : stepV1 apiKey s (Ev.clientMsg f) now = connectToSoniox s (configToUse m) := by
      simp [stepV1, handleClientMessage, hbin, hp, hping, hstart]
    rw [hstep]
    constructor
    · simp [connectToSoniox, hws]
    · simp [connectToSoniox, hws]

/-- A connection with one attached, open upstream socket. -/
def readyConnEx : ConnState :=
  { connectionId := "c2w"
    clientState := SockState.openSt
    sonioxWs := some 0
    isReady := true
    socks := [{ state := SockState.openSt, cfg := emptyClientConfig }]
    timers := [] }

theorem C2_witness :
    (stepV1 "k" readyConnEx (Ev.clientMsg startFrameEx) 0).2
      = [Act.up (UpAct.closeConn 0), Act.up (UpAct.openConn 1)]
    ∧ (stepV1 "k" readyConnEx (Ev.clientMsg startFrameEx) 0).1.sonioxWs = none
    ∧ sockStateAt (stepV1 "k" readyConnEx (Ev.clientMsg startFrameEx) 0).1.socks 0
        = SockState.closing := by
  have h := C2_amended.1 "k" readyConnEx startFrameEx startMsgEx 0 0 (by decide) rfl
    (by decide) rfl rfl (by decide)
  exact ⟨h.1, h.2.1, by rw [h.2.2]; decide⟩

/-- The primary-variant trace refuting C3: a start whose socket opens,
then the upstream closes, and then the 10-second connect timer fires. -/
def c3Trace : List (Ev × Nat) :=
  [(Ev.clientMsg startFrameEx, 0), (Ev.upOpen 0, 1), (Ev.upClose 0 1006 "", 2),
    (Ev.timerFire 0, 10)]

/-- C3 counterexample: the connect timer is not cancelled when the
provider connection opens; it always fires and only checks whether the
socket is open at that moment.  In a session that opened and then
closed before the timer fired, the timer emits a spurious timeout error
frame, although the claim asserts that once opened no timeout error
frame is ever emitted for the lifetime of that session. -/
theorem C3_counterexample :
    (Ev.upOpen 0, 1) ∈ c3Trace
    ∧ (clientFramesOf (runV1 "k" (initConn "c3") c3Trace).2).filter isTimeoutErrFrame
        = [ClientFrame.errorFrame "Soniox connection timeout" none] := by
  decide

/-- C3 as amended: when the 10-second timer fires and the socket it was
armed for is not open at that moment, the half-open connection is
closed and exactly one error frame mentioning timeout is sent
(and no proxy_ready frame); when the socket is open at fire time
nothing is emitted.  The timer is never cancelled early, so this
fire-time check, not cancellation, is what prevents a timeout error
while the session stays open, and a session that opens but ends before
the timer fires still receives the spurious timeout frame. -/
theorem C3_amended :
    (∀ apiKey s sid now, sockStateAt s.socks sid ≠ SockState.openSt →
        stepV1 apiKey s (Ev.timerFire sid) now
          = ({ s with
                timers := s.timers.erase sid
                socks := setSockState s.socks sid (wsCloseState (sockStateAt s.socks sid)) },
              Act.up (UpAct.closeConn sid) ::
                sendToClient s.clientState
                  (ClientFrame.errorFrame "Soniox connection timeout" none)))
  ∧ (∀ apiKey s sid now, sockStateAt s.socks sid = SockState.openSt →
        stepV1 apiKey s (Ev.timerFire sid) now = ({ s with timers := s.timers.erase sid }, [])) := by
  constructor
  · intro apiKey s sid now h
    simp [stepV1, onSonioxTimeout, h]
  · intro apiKey s sid now h
    simp [stepV1, onSonioxTimeout, h]

/-- A connection with a still-connecting upstream socket and its armed
connect timer. -/
def connectingConnEx : ConnState :=
  { connectionId := "c3w"
    clientState := SockState.openSt
    sonioxWs := none
    isReady := false
    socks := [{ state := SockState.connecting, cfg := emptyClientConfig }]
    timers := [0] }

theorem C3_witness :
    stepV1 "k" connectingConnEx (Ev.timerFire 0) 10
      = ({ connectingConnEx with
            timers := []
            socks := [{ state := SockState.closing, cfg := emptyClientConfig }] },
          [Act.up (UpAct.closeConn 0),
            Act.toClient (ClientFrame.errorFrame "Soniox connection timeout" none)]) := by
  have h := C3_amended.1 "k" connectingConnEx 0 10 (by decide)
  rw [h]
  decide

/-- C4: cleanup on a registered id closes the attached upstream socket
if any and the client socket unless it is already closed, within the
same invocation, and removes the id from the registry so that it is no
longer reachable; invoking cleanup again for the same id is a complete
no-op (same registry, no actions, no exception since the function is
total), so no duplicate close attempt is observable.  Cleanup of an
unregistered id is likewise a no-op. -/
theorem C4_cleanup_idempotent :
    (∀ reg id conn, regGet reg id = some conn →
        (cleanupConnection reg id).1 = regDelete reg id
        ∧ (cleanupConnection reg id).2
            = (match conn.sonioxWs with
                | some sid => [Act.up (UpAct.closeConn sid)]
                | none => [])
              ++ (if conn.clientState ≠ SockState.closedSt then [Act.closeClient] else [])
        ∧ regGet (cleanupConnection reg id).1 id = none
        ∧ cleanupConnection (cleanupConnection reg id).1 id = ((cleanupConnection reg id).1, []))
  ∧ (∀ reg id, regGet reg id = none → cleanupConnection reg id = (reg, [])) := by
  constructor
  · intro reg id conn h
    refine ⟨by simp [cleanupConnection, h], by simp [cleanupConnection, h], ?_, ?_⟩
    · simp [cleanupConnection, h, regGet_regDelete]
    · simp [cleanupConnection, h, regGet_regDelete]
  · intro reg id h
    simp [cleanupConnection, h]

theorem C4_witness :
    (cleanupConnection [("c4", readyConnEx)] "c4").1 = []
    ∧ (cleanupConnection [("c4", readyConnEx)] "c4").2
        = [Act.up (UpAct.closeConn 0), Act.closeClient]
    ∧ regGet (cleanupConnection [("c4", readyConnEx)] "c4").1 "c4" = none
    ∧ cleanupConnection (cleanupConnection [("c4", readyConnEx)] "c4").1 "c4"
        = ((cleanupConnection [("c4", readyConnEx)] "c4").1, []) := by
  have h := C4_cleanup_idempotent.1 [("c4", readyConnEx)] "c4" readyConnEx (by decide)
  exact ⟨by rw [h.1]; decide, by rw [h.2.1]; decide, h.2.2.1, h.2.2.2⟩

/-- The upgrade request refuting C7: no token query parameter, and the
bearer token carried only in the Sec-WebSocket-Protocol header. -/
def reqEx : UpgradeReq :=
  { queryToken := none
    secWebSocketProtocol := some ['B', 'e', 'a', 'r', 'e', 'r', '.', 'a', 'b', 'c'] }

/-- C7 counterexample: the claimed policy extracts the token abc from
the negotiation header of this request (and the primary variant indeed
does), but the query-string-only variant the claim also covers rejects
the very same request with Unauthorized before the verifier is ever
invoked, so the claimed extraction policy does not hold for every
WebSocket upgrade request handled by the repository. -/
theorem C7_counterexample :
    wsAuthV2 reqEx = AuthOutcome.rejectNoToken
    ∧ claimTokenPolicy reqEx = AuthOutcome.verify ['a', 'b', 'c']
    ∧ wsAuthV1 reqEx = AuthOutcome.verify ['a', 'b', 'c'] := by
  decide

/-- C7 as amended: the primary variant implements the stated policy - a
truthy query token is preferred; otherwise the comma-separated, trimmed
protocol components are scanned for the first Bearer-prefixed one and
its suffix is used; when neither yields a token the connection is
rejected with Unauthorized before the verifier runs.  The
query-string-only variant never consults the header: without a truthy
query token it rejects with Unauthorized before the verifier runs, even
when the header carries a Bearer component. -/
theorem C7_amended :
    (∀ req t, req.queryToken = some t → t ≠ [] → wsAuthV1 req = AuthOutcome.verify t)
  ∧ (∀ req protocols p,
      (req.queryToken = none ∨ req.queryToken = some []) →
      req.secWebSocketProtocol = some protocols →
      ((splitOnComma protocols).map jsTrim).find? (fun q => startsWithList bearerDot q)
        = some p →
      stripBearerDot p ≠ [] →
      wsAuthV1 req = AuthOutcome.verify (stripBearerDot p))
  ∧ (∀ req, req.queryToken = none → req.secWebSocketProtocol = none →
      wsAuthV1 req = AuthOutcome.rejectNoToken)
  ∧ (∀ req protocols, req.queryToken = none → req.secWebSocketProtocol = some protocols →
      ((splitOnComma protocols).map jsTrim).find? (fun q => startsWithList bearerDot q)
        = none →
      wsAuthV1 req = AuthOutcome.rejectNoToken)
  ∧ (∀ req t, req.queryToken = some t → t ≠ [] → wsAuthV2 req = AuthOutcome.verify t)
  ∧ (∀ req, req.queryToken = none → wsAuthV2 req = AuthOutcome.rejectNoToken) := by
  refine ⟨?_, ?_, ?_, ?_, ?_, ?_⟩
  · intro req t hq ht
    have hne : t.isEmpty = false := by
      cases t with
      | nil => exact absurd rfl ht
      | cons a l => rfl
    simp [wsAuthV1, extractTokenV1, hq, hne]
  · intro req protocols p hq hh hf hne
    have hne2 : (stripBearerDot p).isEmpty = false := by
      cases hsp : stripBearerDot p with
      | nil => exact absurd hsp hne
      | cons a l => rfl
    cases hq with
    | inl h0 => simp [wsAuthV1, extractTokenV1, h0, hh, hf, hne2]
    | inr h0 => simp [wsAuthV1, extractTokenV1, h0, hh, hf, hne2]
  · intro req hq hh
    simp [wsAuthV1, extractTokenV1, hq, hh]
  · intro req protocols hq hh hf
    simp [wsAuthV1, extractTokenV1, hq, hh, hf]
  · intro req t hq ht
    have hne : t.isEmpty = false := by
      cases t with
      | nil => exact absurd rfl ht
      | cons a l => rfl
    simp [wsAuthV2, extractTokenV2, hq, hne]
  · intro req hq
    simp [wsAuthV2, extractTokenV2, hq]

theorem C7_witness :
    wsAuthV1 reqEx = AuthOutcome.verify ['a', 'b', 'c']
    ∧ wsAuthV2 reqEx = AuthOutcome.rejectNoToken
    ∧ wsAuthV2 { queryToken := some ['t'], secWebSocketProtocol := none }
        = AuthOutcome.verify ['t'] := by
  refine ⟨?_, ?_, ?_⟩
  · have h := C7_amended.2.1 reqEx ['B', 'e', 'a', 'r', 'e', 'r', '.', 'a', 'b', 'c']
      ['B', 'e', 'a', 'r', 'e', 'r', '.', 'a', 'b', 'c'] (Or.inl rfl) rfl (by decide) (by decide)
    simpa [stripBearerDot] using h
  · exact C7_amended.2.2.2.2.2 reqEx rfl
  · exact C7_amended.2.2.2.2.1 { queryToken := some ['t'], secWebSocketProtocol := none }
      ['t'] rfl (by decide)

end SonioxProxy






